import Mathlib

/-!
A shallow embedding, in exact (rational / real) arithmetic, of the core of
the 2D Monte Carlo neutral-particle transport mini-app: the per-lane event
classification and event kernels of src/omp3/neutral.c, the scalar variant
in src/omp3/bright.c, the cross-section binary search, the block scheduling
of handle_particles, and the direction-cosine dynamics.  C doubles are
modelled as rationals (reals where the code uses transcendental functions),
C int as integers, and C arrays as total functions from indices.
-/

/-- The per-lane event tags written by the classification pass of
handle_particles (src/omp3/neutral.c lines 178-208).  The numeric values of
the C enum constants PARTICLE_DEAD, PARTICLE_COLLISION, PARTICLE_FACET and
PARTICLE_CENSUS are irrelevant to the control flow, so an inductive type is
used. -/
inductive Event
  | dead
  | collision
  | facet
  | census
deriving DecidableEq, Repr

/-- Embeds the event classification for a live lane in the block event loop,
src/omp3/neutral.c lines 198-208: collision when distance_to_collision is
strictly below both distance_to_facet and distance_to_census, otherwise facet
when distance_to_facet is strictly below distance_to_census, otherwise
census. -/
def nextEvent (distance_to_collision distance_to_facet distance_to_census : ℚ) : Event :=
  if distance_to_collision < distance_to_facet ∧ distance_to_collision < distance_to_census then
    Event.collision
  else if distance_to_facet < distance_to_census then
    Event.facet
  else
    Event.census

/-- Embeds the x travel time of calc_distance_to_facet, src/omp3/neutral.c
lines 559-561: the cell is entered as cellx = particle_cellx - x_off + pad
(line 549), and the branch on omega_x >= 0 picks the right or the
(open-bound corrected) left edge.  eps is OPEN_BOUND_CORRECTION.  Rational
division totalizes 1/0 to 0, so at omega_x = 0 this model collapses the
IEEE infinity of the source; the extended-rational embedding further below
keeps that path where it matters (the variant-equivalence claim). -/
def calcDtX (x : ℚ) (pad x_off : ℤ) (omega_x speed : ℚ) (particle_cellx : ℤ)
    (edgex : ℤ → ℚ) (eps : ℚ) : ℚ :=
  let cellx := particle_cellx - x_off + pad
  let u_x_inv := 1 / (omega_x * speed)
  if omega_x ≥ 0 then (edgex (cellx + 1) - x) * u_x_inv
  else ((edgex cellx - eps) - x) * u_x_inv

/-- Embeds the y travel time of calc_distance_to_facet, src/omp3/neutral.c
lines 562-564, symmetric to calcDtX. -/
def calcDtY (y : ℚ) (pad y_off : ℤ) (omega_y speed : ℚ) (particle_celly : ℤ)
    (edgey : ℤ → ℚ) (eps : ℚ) : ℚ :=
  let celly := particle_celly - y_off + pad
  let u_y_inv := 1 / (omega_y * speed)
  if omega_y ≥ 0 then (edgey (celly + 1) - y) * u_y_inv
  else ((edgey celly - eps) - y) * u_y_inv

/-- Embeds calc_distance_to_facet of src/omp3/neutral.c lines 538-572.
Returns (distance_to_facet, x_facet); x_facet is the C int written on line
565, 1 when dt_x < dt_y and 0 otherwise, and the distance (line 571) is
the selected travel time scaled by mag_u0 = speed.  The global_nx
parameter of the C function is unused by its body and dropped. -/
def calc_distance_to_facet (x y : ℚ) (pad x_off y_off : ℤ)
    (omega_x omega_y speed : ℚ) (particle_cellx particle_celly : ℤ)
    (edgex edgey : ℤ → ℚ) (eps : ℚ) : ℚ × ℤ :=
  let dt_x := calcDtX x pad x_off omega_x speed particle_cellx edgex eps
  let dt_y := calcDtY y pad y_off omega_y speed particle_celly edgey eps
  let x_facet : ℤ := if dt_x < dt_y then 1 else 0
  let mag_u0 := speed
  (if x_facet ≠ 0 then dt_x * mag_u0 else dt_y * mag_u0, x_facet)

/-- Extended rationals modelling the IEEE double special values that the
all-rational embedding cannot represent: finite values, the signed
infinities produced by division by zero, and NaN.  The rational 0 stands
for IEEE +0.0, the value the product omega * speed takes in the
axis-parallel states the transport kernels reach. -/
inductive XRat
  | fin (q : ℚ)
  | posInf
  | negInf
  | nan
deriving DecidableEq, Repr

/-- The signed infinity obtained when a finite factor a scales a positive
infinity: a positive factor keeps the sign, a negative factor flips it,
and a zero factor gives NaN. -/
def XRat.sgnInf (a : ℚ) : XRat :=
  if 0 < a then XRat.posInf else if a < 0 then XRat.negInf else XRat.nan

/-- IEEE multiplication of a finite double a by an extended double. -/
def XRat.mulFin : ℚ → XRat → XRat
  | a, XRat.fin b => XRat.fin (a * b)
  | a, XRat.posInf => XRat.sgnInf a
  | a, XRat.negInf => XRat.sgnInf (-a)
  | _, XRat.nan => XRat.nan

/-- IEEE multiplication of an extended double by a finite double; the
operation is commutative on values, NaN cases included. -/
def XRat.mulByFin (b : XRat) (a : ℚ) : XRat := XRat.mulFin a b

/-- IEEE reciprocal of a finite double: the reciprocal of (+)0.0 is
positive infinity. -/
def XRat.oneDiv (a : ℚ) : XRat :=
  if a = 0 then XRat.posInf else XRat.fin (1 / a)

/-- IEEE strict less-than on extended doubles; every comparison involving
NaN is false. -/
def XRat.ltb : XRat → XRat → Bool
  | XRat.nan, _ => false
  | _, XRat.nan => false
  | XRat.negInf, XRat.negInf => false
  | XRat.negInf, _ => true
  | _, XRat.negInf => false
  | XRat.posInf, _ => false
  | XRat.fin _, XRat.posInf => true
  | XRat.fin a, XRat.fin b => decide (a < b)

/-- Embeds calc_distance_to_facet of src/omp3/neutral.c lines 538-572 over
extended rationals, keeping the IEEE division-by-zero paths: at
omega_x = 0 the inverse velocity component u_x_inv is positive infinity
and dt_x becomes a signed infinity, as in the source. -/
def calc_distance_to_facet_ieee (x y : ℚ) (pad x_off y_off : ℤ)
    (omega_x omega_y speed : ℚ) (particle_cellx particle_celly : ℤ)
    (edgex edgey : ℤ → ℚ) (eps : ℚ) : XRat × ℤ :=
  let cellx := particle_cellx - x_off + pad
  let celly := particle_celly - y_off + pad
  let u_x_inv := XRat.oneDiv (omega_x * speed)
  let u_y_inv := XRat.oneDiv (omega_y * speed)
  let dt_x := if omega_x ≥ 0 then XRat.mulFin (edgex (cellx + 1) - x) u_x_inv
    else XRat.mulFin ((edgex cellx - eps) - x) u_x_inv
  let dt_y := if omega_y ≥ 0 then XRat.mulFin (edgey (celly + 1) - y) u_y_inv
    else XRat.mulFin ((edgey celly - eps) - y) u_y_inv
  let x_facet : ℤ := if XRat.ltb dt_x dt_y then 1 else 0
  let mag_u0 := speed
  (if x_facet ≠ 0 then XRat.mulByFin dt_x mag_u0 else XRat.mulByFin dt_y mag_u0,
   x_facet)

/-- Embeds the calc_distance_to_facet variant of src/omp3/bright.c lines
482-533 over extended rationals.  The cell is carried as a single linear
index and split by cellx = cell % global_nx, celly = cell / global_nx
(lines 490-491); the branches test omega > 0 (not >= 0), and the distance
re-evaluates the selected edge expression times mag_u0 times the inverse
velocity component (lines 513-532), so at omega_x = 0 this variant takes
the left-edge branch and its dt_x and distance are negative infinities.
The PAD macro of bright.c is the pad parameter. -/
def bright_calc_distance_to_facet_ieee (global_nx : ℤ) (x y : ℚ)
    (pad x_off y_off : ℤ) (omega_x omega_y particle_velocity : ℚ) (cell : ℤ)
    (edgex edgey : ℤ → ℚ) (eps : ℚ) : XRat × ℤ :=
  let cellx := cell % global_nx - x_off + pad
  let celly := cell / global_nx - y_off + pad
  let u_x_inv := XRat.oneDiv (omega_x * particle_velocity)
  let u_y_inv := XRat.oneDiv (omega_y * particle_velocity)
  let dt_x := if omega_x > 0 then XRat.mulFin (edgex (cellx + 1) - x) u_x_inv
    else XRat.mulFin ((edgex cellx - eps) - x) u_x_inv
  let dt_y := if omega_y > 0 then XRat.mulFin (edgey (celly + 1) - y) u_y_inv
    else XRat.mulFin ((edgey celly - eps) - y) u_y_inv
  let x_facet : ℤ := if XRat.ltb dt_x dt_y then 1 else 0
  let mag_u0 := particle_velocity
  let dist :=
    if x_facet ≠ 0 then
      if omega_x > 0 then XRat.mulFin ((edgex (cellx + 1) - x) * mag_u0) u_x_inv
      else XRat.mulFin (((edgex cellx - eps) - x) * mag_u0) u_x_inv
    else
      if omega_y > 0 then XRat.mulFin ((edgey (celly + 1) - y) * mag_u0) u_y_inv
      else XRat.mulFin (((edgey celly - eps) - y) * mag_u0) u_y_inv
  (dist, x_facet)

/-- Embeds the x-facet branch of facet_event, src/omp3/neutral.c lines
455-459: omega_x is negated whenever cellx >= global_nx - 1 or cellx <= 0
(regardless of the direction of motion), then cellx is stepped using the
updated omega_x, the second conditional reading the cellx already updated
by the first.  Returns (new omega_x, new cellx). -/
def facetUpdateX (global_nx : ℤ) (omega_x : ℚ) (cellx : ℤ) : ℚ × ℤ :=
  let omega_x1 := if cellx ≥ global_nx - 1 ∨ cellx ≤ 0 then -omega_x else omega_x
  let cellx1 := cellx + (if omega_x1 > 0 ∧ cellx < global_nx - 1 then 1 else 0)
  let cellx2 := cellx1 + (if omega_x1 < 0 ∧ cellx1 > 0 then -1 else 0)
  (omega_x1, cellx2)

/-- Embeds the x-facet branch of handle_facet_encounter, src/omp3/bright.c
lines 304-343, projected onto (omega_x, cellx): reflection happens only at
the boundary cell in the direction of motion, otherwise the cell steps by
the sign of omega_x; the Bool records whether the particle left the local
subdomain (the send_and_replace_particle branch). -/
def bright_facet_x (global_nx nx x_off : ℤ) (omega_x : ℚ) (cellx : ℤ) : ℚ × ℤ × Bool :=
  if omega_x > 0 then
    if cellx ≥ global_nx - 1 then (-omega_x, cellx, false)
    else if cellx + 1 ≥ nx + x_off then (omega_x, cellx + 1, true)
    else (omega_x, cellx + 1, false)
  else if omega_x < 0 then
    if cellx ≤ 0 then (-omega_x, cellx, false)
    else if cellx - 1 < x_off then (omega_x, cellx - 1, true)
    else (omega_x, cellx - 1, false)
  else (omega_x, cellx, false)

/-- Embeds the mean-free-path and census-time decrements of facet_event,
src/omp3/neutral.c lines 447-449: returns the pair
(mfp_to_collision - distance_to_facet / cell_mfp,
 dt_to_census - distance_to_facet / speed). -/
def facet_event_updates (mfp_to_collision dt_to_census distance_to_facet cell_mfp speed : ℚ) :
    ℚ × ℚ :=
  (mfp_to_collision - distance_to_facet / cell_mfp,
   dt_to_census - distance_to_facet / speed)

/-- Embeds the census-time decrement of collision_event, src/omp3/neutral.c
line 419: dt_to_census - distance_to_collision / speed, where speed is the
pre-collision speed (line 420 updates the speed only afterwards). -/
def collision_event_dt (dt_to_census distance_to_collision speed : ℚ) : ℚ :=
  dt_to_census - distance_to_collision / speed

/-- One SoA lane of particle state, the per-particle fields of the Particle
block accessed through the p_* pointers in src/omp3/neutral.c lines
104-114. -/
structure Lane where
  x : ℚ
  y : ℚ
  omega_x : ℚ
  omega_y : ℚ
  energy : ℚ
  weight : ℚ
  dt_to_census : ℚ
  mfp_to_collision : ℚ
  cellx : ℤ
  celly : ℤ
  dead : Bool
deriving DecidableEq, Repr

/-- Embeds calculate_energy_deposition, src/omp3/neutral.c lines 575-597.
The global_nx, nx, x_off, y_off, ip and inv_ntotal_particles parameters of
the C function are unused by its body and dropped; the constants MASS_NO
and BARNS come from headers outside src/ and are passed as parameters. -/
def calculate_energy_deposition (MASS_NO BARNS : ℚ)
    (path_length number_density microscopic_cs_absorb microscopic_cs_total
     energy weight : ℚ) : ℚ :=
  let average_exit_energy_absorb : ℚ := 0
  let absorption_heating :=
    (microscopic_cs_absorb / microscopic_cs_total) * average_exit_energy_absorb
  let average_exit_energy_scatter :=
    energy * ((MASS_NO * MASS_NO + MASS_NO + 1) / ((MASS_NO + 1) * (MASS_NO + 1)))
  let scattering_heating :=
    (1 - (microscopic_cs_absorb / microscopic_cs_total)) * average_exit_energy_scatter
  let heating_response := energy - scattering_heating - absorption_heating
  weight * path_length * (microscopic_cs_total * BARNS) * heating_response * number_density

/-- Embeds update_tallies, src/omp3/neutral.c lines 502-532 (the atomic-add
path): the tally cell (celly - y_off) * nx + (cellx - x_off) gains
energy_deposition * inv_ntotal_particles and every other cell is
untouched.  The tally array is a total function from linear indices. -/
def update_tallies (nx x_off y_off : ℤ) (inv_ntotal_particles energy_deposition : ℚ)
    (tally : ℤ → ℚ) (cellx celly : ℤ) : ℤ → ℚ :=
  fun i =>
    if i = (celly - y_off) * nx + (cellx - x_off) then
      tally i + energy_deposition * inv_ntotal_particles
    else tally i

/-- Embeds census_event, src/omp3/neutral.c lines 476-499: the position is
advanced by distance_to_census along the direction, mfp_to_collision is
decremented by distance_to_census / cell_mfp, the lane energy-deposition
accumulator gains the deposition for the census path and is flushed to the
tally once, and dt_to_census is set to 0.  Returns the new lane state, the
new accumulator value and the new tally. -/
def census_event (MASS_NO BARNS : ℚ) (nx x_off y_off : ℤ)
    (inv_ntotal_particles distance_to_census cell_mfp energy_deposition
     number_density microscopic_cs_scatter microscopic_cs_absorb : ℚ)
    (tally : ℤ → ℚ) (p : Lane) : Lane × ℚ × (ℤ → ℚ) :=
  let p1 := { p with
    x := p.x + distance_to_census * p.omega_x,
    y := p.y + distance_to_census * p.omega_y,
    mfp_to_collision := p.mfp_to_collision - distance_to_census / cell_mfp }
  let ed := energy_deposition + calculate_energy_deposition MASS_NO BARNS
    distance_to_census number_density microscopic_cs_absorb
    (microscopic_cs_scatter + microscopic_cs_absorb) p.energy p.weight
  let tally1 := update_tallies nx x_off y_off inv_ntotal_particles ed tally p1.cellx p1.celly
  ({ p1 with dt_to_census := 0 }, ed, tally1)

/-- Embeds the block partitioning of handle_particles, src/omp3/neutral.c
lines 62-64: the number of blocks actually iterated.  nb_remainder = nb %
nthreads is computed on line 64 but never used by the scheduling. -/
def nblocks (nparticles_to_process BLOCK_SIZE : ℕ) : ℕ :=
  nparticles_to_process / BLOCK_SIZE

/-- Embeds the set of block ids the parallel region of handle_particles
visits, src/omp3/neutral.c lines 78-101: thread tid starts at
thread_block_off = tid * nb_per_thread with nb_per_thread = nb / nthreads,
and runs b = 0 .. nb_per_thread - 1 over bid = thread_block_off + b. -/
def processedBlocks (nb nthreads : ℕ) : List ℕ :=
  (List.range nthreads).flatMap fun tid =>
    (List.range (nb / nthreads)).map fun b => tid * (nb / nthreads) + b

/-- The address of the stack array int found[BLOCK_SIZE] declared on
src/omp3/neutral.c line 220; a stack array always has a non-null address,
which is what the check on line 248 actually tests. -/
def foundArrayIsNonNull : Bool := true

/-- Embeds the cross-section lookup-failure check of handle_particles,
src/omp3/neutral.c lines 246-251: the loop runs over the lanes of the
block, but its condition is !found where found is the array (a pointer),
not found[ip]; the per-lane values are therefore never consulted.  Returns
whether TERMINATE is reached for a block whose lanes carry the given found
values. -/
def crossSectionLookupFailureDetected (found : List Bool) : Bool :=
  found.any fun _ => !foundArrayIsNonNull

/-- Embeds the state step of the binary-search loop of
microscopic_cs_for_energy_binary, src/omp3/neutral.c lines 609-612, as a
fuel-indexed recursion: while energy < keys[ind] or energy >= keys[ind+1],
ind moves by -width or +width according to energy < keys[ind], and width
becomes max(1, width / 2).  The C while loop carries no fuel; the fuel
models a bound on the number of iterations, and returning none means the
bound was exhausted. -/
def csSearch (keys : ℤ → ℚ) (energy : ℚ) : ℕ → ℤ → ℤ → Option ℤ
  | 0, _, _ => none
  | fuel + 1, ind, width =>
    if energy < keys ind ∨ energy ≥ keys (ind + 1) then
      csSearch keys energy fuel
        (ind + (if energy < keys ind then -width else width))
        (max 1 (width / 2))
    else some ind

/-- Embeds microscopic_cs_for_energy_binary, src/omp3/neutral.c lines
600-620: the search starts at ind = nentries / 2 with width = ind / 2, and
the result is the bracketing index together with the linearly interpolated
value (lines 617-619).  The fuel 3 * nentries + 3 is an upper bound on the
iterations of the C while loop, shown sufficient below.  The cs_index
warm-restart out-parameter is the returned index. -/
def microscopic_cs_for_energy_binary (keys values : ℤ → ℚ) (nentries : ℕ)
    (energy : ℚ) : Option (ℤ × ℚ) :=
  (csSearch keys energy (3 * nentries + 3) ((nentries : ℤ) / 2) (((nentries : ℤ) / 2) / 2)).map
    fun ind =>
      (ind, values ind +
        ((energy - keys ind) / (keys (ind + 1) - keys ind)) *
        (values (ind + 1) - values ind))

/-- Claim C1, counterexample: with distance_to_collision = distance_to_facet
= 1 strictly below distance_to_census = 2, the classification of
src/omp3/neutral.c lines 198-208 yields a facet event, not the collision
event the claim asserts. -/
theorem c1_tie_cex :
    (1 : ℚ) = (1 : ℚ) ∧ (1 : ℚ) < (2 : ℚ) ∧ nextEvent 1 1 2 ≠ Event.collision := by
  decide

/-- Claim C1 (amended): when distance_to_collision exactly equals
distance_to_facet and both are strictly less than distance_to_census, the
lane is classified as a facet event; collision is selected only when its
distance is strictly smaller than both others. -/
theorem c1_tie_goes_to_facet (dcoll dfacet dcensus : ℚ)
    (heq : dcoll = dfacet) (hlt : dfacet < dcensus) :
    nextEvent dcoll dfacet dcensus = Event.facet := by
  subst heq
  unfold nextEvent
  simp [lt_irrefl, hlt]

/-- Claim C1, witness: the amended tie policy evaluated at the concrete
distances 1, 1, 2. -/
theorem c1_tie_goes_to_facet_witness : nextEvent 1 1 2 = Event.facet :=
  c1_tie_goes_to_facet 1 1 2 rfl (by norm_num)

/-- Claim C2: at global_nx = 2, a particle in boundary cell cellx = 0 that
crosses an x-facet moving right (omega_x = 1/2 > 0) is reflected by
facet_event of src/omp3/neutral.c (omega_x becomes -1/2 and the cell stays
0), although the facet crossed is the interior facet; the scalar
handle_facet_encounter of src/omp3/bright.c steps the same particle to
cellx = 1 with omega_x unchanged, as the claim states. -/
theorem c2_inward_boundary_reflection_cex :
    facetUpdateX 2 (1/2) 0 = (-(1/2 : ℚ), 0) ∧
    bright_facet_x 2 2 0 (1/2) 0 = ((1/2 : ℚ), 1, false) := by
  norm_num [facetUpdateX, bright_facet_x]

/-- Claim C3: with nparticles_to_process = 48 and BLOCK_SIZE = 16 (three
blocks) and two worker threads, block 2 is never visited by the block loop
of handle_particles, while blocks 0 and 1 are; the remainder blocks
nb % nthreads are silently skipped. -/
theorem c3_remainder_block_skipped :
    2 ∉ processedBlocks (nblocks 48 16) 2 ∧
    0 ∈ processedBlocks (nblocks 48 16) 2 ∧
    1 ∈ processedBlocks (nblocks 48 16) 2 := by
  decide

/-- Claim C4: the lookup-failure check after the collision pass
(src/omp3/neutral.c lines 246-251) never reaches TERMINATE, whatever
per-lane lookup outcomes the block carries, because the guard tests the
address of the found array rather than the lane value found[ip]. -/
theorem c4_found_check_never_fires (found : List Bool) :
    crossSectionLookupFailureDetected found = false := by
  simp [crossSectionLookupFailureDetected, foundArrayIsNonNull]

/-- Claim C6, counterexample: on a unit mesh with omega_x = omega_y = 1/2
and speed 2 the two axis travel times are exactly equal (both 1), and
calc_distance_to_facet of src/omp3/neutral.c reports x_facet = 0 (a y-facet
crossing), not the x-facet crossing the claim asserts. -/
theorem c6_tie_cex :
    calcDtX 0 0 0 (1/2) 2 0 (fun i => (i : ℚ)) (1/10^14) =
      calcDtY 0 0 0 (1/2) 2 0 (fun i => (i : ℚ)) (1/10^14) ∧
    (calc_distance_to_facet 0 0 0 0 0 (1/2) (1/2) 2 0 0
      (fun i => (i : ℚ)) (fun i => (i : ℚ)) (1/10^14)).2 = 0 := by
  constructor
  · norm_num [calcDtX, calcDtY]
  · norm_num [calc_distance_to_facet, calcDtX, calcDtY]

/-- Claim C6 (amended): in calc_distance_to_facet, whenever the two axis
travel times are exactly equal the crossing is reported as a y-facet
crossing (x_facet = 0); x_facet = 1 requires dt_x strictly below dt_y. -/
theorem c6_tie_is_y_facet (x y : ℚ) (pad x_off y_off : ℤ)
    (omega_x omega_y speed : ℚ) (cx cy : ℤ) (edgex edgey : ℤ → ℚ) (eps : ℚ)
    (h : calcDtX x pad x_off omega_x speed cx edgex eps =
         calcDtY y pad y_off omega_y speed cy edgey eps) :
    (calc_distance_to_facet x y pad x_off y_off omega_x omega_y speed cx cy
      edgex edgey eps).2 = 0 := by
  unfold calc_distance_to_facet
  rw [h]
  simp

/-- Claim C6, witness: the amended tie rule evaluated at the concrete tie
input of the counterexample. -/
theorem c6_tie_is_y_facet_witness :
    (calc_distance_to_facet 0 0 0 0 0 (1/2) (1/2) 2 0 0
      (fun i => (i : ℚ)) (fun i => (i : ℚ)) (1/10^14)).2 = 0 :=
  c6_tie_is_y_facet 0 0 0 0 0 (1/2) (1/2) 2 0 0 _ _ (1/10^14) (by norm_num [calcDtX, calcDtY])

/-- Claim C5: under the event-selection preconditions of the classification
pass (stated through nextEvent with distance_to_collision =
mfp_to_collision * cell_mfp and distance_to_census = speed * dt_to_census),
the facet-kernel decrements of mfp_to_collision and dt_to_census and the
collision-kernel decrement of dt_to_census never produce a negative value,
in exact arithmetic. -/
theorem c5_decrements_stay_nonneg (mfp dt dfacet cell_mfp speed : ℚ)
    (hc : 0 < cell_mfp) (hs : 0 < speed) :
    (nextEvent (mfp * cell_mfp) dfacet (speed * dt) = Event.facet →
      0 ≤ (facet_event_updates mfp dt dfacet cell_mfp speed).1 ∧
      0 ≤ (facet_event_updates mfp dt dfacet cell_mfp speed).2) ∧
    (nextEvent (mfp * cell_mfp) dfacet (speed * dt) = Event.collision →
      0 ≤ collision_event_dt dt (mfp * cell_mfp) speed) := by
  constructor
  · intro h
    unfold nextEvent at h
    split_ifs at h with h1 h2
    push_neg at h1
    have hfc : dfacet ≤ mfp * cell_mfp := by
      rcases lt_or_le (mfp * cell_mfp) dfacet with hlt | hle
      · exact le_of_lt (lt_of_lt_of_le h2 (h1 hlt))
      · exact hle
    refine ⟨sub_nonneg.mpr ((div_le_iff₀ hc).mpr hfc), sub_nonneg.mpr ?_⟩
    have hds : dfacet / speed < dt := (div_lt_iff₀ hs).mpr (by linarith [mul_comm speed dt])
    exact le_of_lt hds
  · intro h
    unfold nextEvent at h
    split_ifs at h with h1 h2
    have hcd : mfp * cell_mfp < dt * speed := by linarith [mul_comm speed dt, h1.2]
    exact sub_nonneg.mpr (le_of_lt ((div_lt_iff₀ hs).mpr hcd))

/-- Claim C5, witness: the facet part at (mfp, dt, d_facet, cell_mfp,
speed) = (1, 1, 1/2, 1, 1) and the collision part at (1/2, 1, 1, 1, 1). -/
theorem c5_decrements_stay_nonneg_witness :
    (0 ≤ (facet_event_updates 1 1 (1/2) 1 1).1 ∧
     0 ≤ (facet_event_updates 1 1 (1/2) 1 1).2) ∧
    0 ≤ collision_event_dt 1 ((1/2) * 1) 1 :=
  ⟨(c5_decrements_stay_nonneg 1 1 (1/2) 1 1 (by norm_num) (by norm_num)).1
      (by norm_num [nextEvent]),
   (c5_decrements_stay_nonneg (1/2) 1 1 1 1 (by norm_num) (by norm_num)).2
      (by norm_num [nextEvent])⟩

/-- Claim C10: census_event modifies, of the particle state, only the
position (advanced by distance_to_census along the direction),
mfp_to_collision (decremented by distance_to_census / cell_mfp) and
dt_to_census (set to exactly 0), and performs exactly one addition to the
tally, at the cell of the particle; energy, weight, direction cosines,
cell indices, the dead flag, and every other tally cell are unchanged. -/
theorem c10_census_frame (MASS_NO BARNS : ℚ) (nx x_off y_off : ℤ)
    (inv_ntotal d cell_mfp ed nd mcs mca : ℚ) (tally : ℤ → ℚ) (p : Lane) :
    let r := census_event MASS_NO BARNS nx x_off y_off inv_ntotal d cell_mfp ed
      nd mcs mca tally p
    let idx := (p.celly - y_off) * nx + (p.cellx - x_off)
    (r.1.energy = p.energy ∧ r.1.weight = p.weight ∧ r.1.omega_x = p.omega_x ∧
     r.1.omega_y = p.omega_y ∧ r.1.cellx = p.cellx ∧ r.1.celly = p.celly ∧
     r.1.dead = p.dead ∧ r.1.x = p.x + d * p.omega_x ∧ r.1.y = p.y + d * p.omega_y ∧
     r.1.mfp_to_collision = p.mfp_to_collision - d / cell_mfp ∧
     r.1.dt_to_census = 0) ∧
    r.2.2 idx = tally idx + r.2.1 * inv_ntotal ∧
    (∀ i, i ≠ idx → r.2.2 i = tally i) := by
  refine ⟨⟨rfl, rfl, rfl, rfl, rfl, rfl, rfl, rfl, rfl, rfl, rfl⟩, ?_, ?_⟩
  · simp [census_event, update_tallies]
  · intro i hi
    simp [census_event, update_tallies, hi]

/-- Claim C10, witness: the frame conditions evaluated on a concrete lane
in cell (1, 1) of a 3-wide tally: the energy field is unchanged and the
tally cell 0 (distinct from the written cell 4) is unchanged. -/
theorem c10_census_frame_witness :
    (census_event 1 1 3 0 0 1 1 1 0 1 1 1 (fun _ => 0)
      { x := 0, y := 0, omega_x := 1, omega_y := 0, energy := 5, weight := 1,
        dt_to_census := 2, mfp_to_collision := 3, cellx := 1, celly := 1,
        dead := false }).1.energy = (5 : ℚ) ∧
    (census_event 1 1 3 0 0 1 1 1 0 1 1 1 (fun _ => 0)
      { x := 0, y := 0, omega_x := 1, omega_y := 0, energy := 5, weight := 1,
        dt_to_census := 2, mfp_to_collision := 3, cellx := 1, celly := 1,
        dead := false }).2.2 0 = (0 : ℚ) :=
  ⟨(c10_census_frame 1 1 3 0 0 1 1 1 0 1 1 1 (fun _ => 0)
      { x := 0, y := 0, omega_x := 1, omega_y := 0, energy := 5, weight := 1,
        dt_to_census := 2, mfp_to_collision := 3, cellx := 1, celly := 1,
        dead := false }).1.1,
   (c10_census_frame 1 1 3 0 0 1 1 1 0 1 1 1 (fun _ => 0)
      { x := 0, y := 0, omega_x := 1, omega_y := 0, energy := 5, weight := 1,
        dt_to_census := 2, mfp_to_collision := 3, cellx := 1, celly := 1,
        dead := false }).2.2 0 (by decide)⟩

/-- Scaling a signed infinity by a finite factor multiplies the signs. -/
lemma XRat.mulFin_sgnInf (s a : ℚ) :
    XRat.mulFin s (XRat.sgnInf a) = XRat.sgnInf (a * s) := by
  unfold XRat.sgnInf
  rcases lt_trichotomy a 0 with ha | ha | ha
  · rcases lt_trichotomy s 0 with hs | hs | hs
    · simp [XRat.mulFin, XRat.sgnInf, ha, asymm ha,
        mul_pos_of_neg_of_neg ha hs, show (0:ℚ) < -s by linarith]
    · subst hs
      simp [XRat.mulFin, XRat.sgnInf, ha, asymm ha, mul_zero, lt_irrefl, neg_zero]
    · simp [XRat.mulFin, XRat.sgnInf, ha, asymm ha, hs,
        mul_neg_of_neg_of_pos ha hs, asymm (mul_neg_of_neg_of_pos ha hs),
        show (-s:ℚ) < 0 by linarith, show ¬(0:ℚ) < -s by linarith]
  · subst ha
    simp [XRat.mulFin, XRat.sgnInf, lt_irrefl, zero_mul]
  · rcases lt_trichotomy s 0 with hs | hs | hs
    · simp [XRat.mulFin, XRat.sgnInf, ha, hs, asymm hs,
        mul_neg_of_pos_of_neg ha hs, asymm (mul_neg_of_pos_of_neg ha hs)]
    · subst hs
      simp [XRat.mulFin, XRat.sgnInf, ha, mul_zero, lt_irrefl]
    · simp [XRat.mulFin, XRat.sgnInf, ha, hs, mul_pos ha hs]

/-- Reassociating two finite factors around an extended double under IEEE
multiplication. -/
lemma XRat.mulFin_mulFin (s a : ℚ) (u : XRat) :
    XRat.mulFin s (XRat.mulFin a u) = XRat.mulFin (a * s) u := by
  cases u with
  | fin b =>
    show XRat.fin (s * (a * b)) = XRat.fin (a * s * b)
    exact congrArg XRat.fin (by ring)
  | posInf => exact XRat.mulFin_sgnInf s a
  | negInf =>
    show XRat.mulFin s (XRat.sgnInf (-a)) = XRat.sgnInf (-(a * s))
    rw [XRat.mulFin_sgnInf]
    exact congrArg XRat.sgnInf (by ring)
  | nan => rfl

/-- Claim C8, counterexample: at the unit direction (0, 1) the two
variants disagree.  With the particle at (1, 1) in cell (0, 0) of a mesh
with edges at 0 and 2, speed 1 and eps = 1, the src/omp3/neutral.c variant
computes dt_x = +infinity (right-edge branch, omega_x >= 0) and reports a
y-facet crossing at finite distance 1, while the src/omp3/bright.c variant
computes dt_x = -infinity (left-edge branch, omega_x > 0 is false) and
reports x_facet = 1 with distance -infinity. -/
theorem c8_axis_direction_cex :
    (0 : ℚ)^2 + (1 : ℚ)^2 = 1 ∧
    calc_distance_to_facet_ieee 1 1 0 0 0 0 1 1 0 0
      (fun i => 2 * (i : ℚ)) (fun i => 2 * (i : ℚ)) 1 = (XRat.fin 1, 0) ∧
    bright_calc_distance_to_facet_ieee 2 1 1 0 0 0 0 1 1 0
      (fun i => 2 * (i : ℚ)) (fun i => 2 * (i : ℚ)) 1 = (XRat.negInf, 1) := by
  refine ⟨by norm_num, ?_, ?_⟩ <;>
    norm_num [calc_distance_to_facet_ieee, bright_calc_distance_to_facet_ieee,
      XRat.oneDiv, XRat.mulFin, XRat.mulByFin, XRat.sgnInf, XRat.ltb]

/-- Claim C8 (amended): for every position, speed, cell (with the linear
cell index celly * global_nx + cellx mapped to the bright.c
representation) and every unit direction with both components nonzero, the
src/omp3/neutral.c variant and the src/omp3/bright.c variant return the
same distance_to_facet and the same x_facet flag, in the extended-rational
model that keeps the IEEE division-by-zero paths.  At axis-parallel
directions the variants disagree, see the counterexample. -/
theorem c8_facet_variants_agree (global_nx : ℤ) (x y : ℚ) (pad x_off y_off : ℤ)
    (omega_x omega_y speed : ℚ) (cellx celly : ℤ) (edgex edgey : ℤ → ℚ) (eps : ℚ)
    (hunit : omega_x ^ 2 + omega_y ^ 2 = 1)
    (hox : omega_x ≠ 0) (hoy : omega_y ≠ 0)
    (hcx0 : 0 ≤ cellx) (hcx1 : cellx < global_nx) (hcy0 : 0 ≤ celly) :
    calc_distance_to_facet_ieee x y pad x_off y_off omega_x omega_y speed cellx
      celly edgex edgey eps =
    bright_calc_distance_to_facet_ieee global_nx x y pad x_off y_off omega_x
      omega_y speed (celly * global_nx + cellx) edgex edgey eps := by
  have hcell : celly * global_nx + cellx = cellx + global_nx * celly := by ring
  have hmod : (celly * global_nx + cellx) % global_nx = cellx := by
    rw [hcell, Int.add_mul_emod_self_left]
    exact Int.emod_eq_of_lt hcx0 hcx1
  have hdiv : (celly * global_nx + cellx) / global_nx = celly := by
    rw [hcell, Int.add_mul_ediv_left _ _ (by omega : global_nx ≠ 0),
        Int.ediv_eq_zero_of_lt hcx0 hcx1, zero_add]
  have keyx : ∀ (a b : XRat),
      (if omega_x ≥ 0 then a else b) = (if omega_x > 0 then a else b) := by
    intro a b
    rcases hox.lt_or_lt with h | h
    · rw [if_neg (not_le.mpr h), if_neg (not_lt.mpr (le_of_lt h))]
    · rw [if_pos (le_of_lt h), if_pos h]
  have keyy : ∀ (a b : XRat),
      (if omega_y ≥ 0 then a else b) = (if omega_y > 0 then a else b) := by
    intro a b
    rcases hoy.lt_or_lt with h | h
    · rw [if_neg (not_le.mpr h), if_neg (not_lt.mpr (le_of_lt h))]
    · rw [if_pos (le_of_lt h), if_pos h]
  simp only [calc_distance_to_facet_ieee, bright_calc_distance_to_facet_ieee,
    XRat.mulByFin, hmod, hdiv, keyx, keyy,
    apply_ite (XRat.mulFin speed), XRat.mulFin_mulFin]

/-- Claim C8, witness: the amended equivalence at a concrete state with
unit direction (3/5, 4/5) in cell (1, 2) of a 3-wide global mesh. -/
theorem c8_facet_variants_agree_witness :
    calc_distance_to_facet_ieee (1/3) (1/4) 0 0 0 (3/5) (4/5) 2 1 2
      (fun i => (i : ℚ)) (fun i => (i : ℚ)) (1/10^14) =
    bright_calc_distance_to_facet_ieee 3 (1/3) (1/4) 0 0 0 (3/5) (4/5) 2 (2 * 3 + 1)
      (fun i => (i : ℚ)) (fun i => (i : ℚ)) (1/10^14) :=
  c8_facet_variants_agree 3 (1/3) (1/4) 0 0 0 (3/5) (4/5) 2 1 2
    (fun i => (i : ℚ)) (fun i => (i : ℚ)) (1/10^14)
    (by norm_num) (by norm_num) (by norm_num) (by norm_num) (by norm_num)
    (by norm_num)

/-- Unfolding equation for one iteration of the binary-search loop. -/
lemma csSearch_succ (keys : ℤ → ℚ) (E : ℚ) (fuel : ℕ) (ind w : ℤ) :
    csSearch keys E (fuel + 1) ind w =
      if E < keys ind ∨ E ≥ keys (ind + 1) then
        csSearch keys E fuel (ind + (if E < keys ind then -w else w)) (max 1 (w / 2))
      else some ind := rfl

/-- For a strictly monotone table bracketing E at istar, the comparison
energy < keys[ind] decides exactly whether ind is above the bracket. -/
lemma bracket_lt_iff (keys : ℤ → ℚ) (E : ℚ) (istar : ℤ) (hk : StrictMono keys)
    (hbr1 : keys istar ≤ E) (hbr2 : E < keys (istar + 1)) (j : ℤ) :
    E < keys j ↔ istar < j := by
  constructor
  · intro h
    by_contra hc
    push_neg at hc
    exact absurd hbr1 (not_le.mpr (lt_of_lt_of_le h (hk.monotone hc)))
  · intro h
    exact lt_of_lt_of_le hbr2 (hk.monotone (by omega))

/-- For a strictly monotone table bracketing E at istar, the comparison
energy >= keys[ind + 1] decides exactly whether ind is below the bracket. -/
lemma bracket_ge_iff (keys : ℤ → ℚ) (E : ℚ) (istar : ℤ) (hk : StrictMono keys)
    (hbr1 : keys istar ≤ E) (hbr2 : E < keys (istar + 1)) (j : ℤ) :
    keys (j + 1) ≤ E ↔ j < istar := by
  constructor
  · intro h
    by_contra hc
    push_neg at hc
    exact absurd (lt_of_lt_of_le hbr2 (hk.monotone (by omega))) (not_lt.mpr h)
  · intro h
    exact le_trans (hk.monotone (by omega)) hbr1

/-- The binary-search loop of microscopic_cs_for_energy_binary reaches the
bracketing index istar from any start state with width at least 1, given
fuel at least 3 * width + |ind - istar| + 2. -/
lemma csSearch_converges (keys : ℤ → ℚ) (E : ℚ) (istar : ℤ) (hk : StrictMono keys)
    (hbr1 : keys istar ≤ E) (hbr2 : E < keys (istar + 1)) :
    ∀ (fuel : ℕ) (ind w : ℤ), 1 ≤ w → 3 * w + |ind - istar| + 2 ≤ (fuel : ℤ) →
      csSearch keys E fuel ind w = some istar := by
  intro fuel
  induction fuel with
  | zero =>
    intro ind w hw hb
    have := abs_nonneg (ind - istar)
    exfalso
    omega
  | succ fuel ih =>
    intro ind w hw hb
    rw [csSearch_succ]
    by_cases hcond : E < keys ind ∨ E ≥ keys (ind + 1)
    · rw [if_pos hcond]
      by_cases hdown : E < keys ind
      · have hd : istar < ind := (bracket_lt_iff keys E istar hk hbr1 hbr2 ind).mp hdown
        rw [if_pos hdown]
        apply ih _ _ (le_max_left 1 (w / 2))
        rcases max_choice 1 (w / 2) with hm | hm <;> rw [hm] <;>
          rcases abs_cases (ind + -w - istar) with ⟨he, h0⟩ | ⟨he, h0⟩ <;> rw [he] <;>
          rcases abs_cases (ind - istar) with ⟨he2, h02⟩ | ⟨he2, h02⟩ <;>
          rw [he2] at hb <;> omega
      · have hup : ind < istar := by
          rcases hcond with hcond | hcond
          · exact absurd hcond hdown
          · exact (bracket_ge_iff keys E istar hk hbr1 hbr2 ind).mp hcond
        rw [if_neg hdown]
        apply ih _ _ (le_max_left 1 (w / 2))
        rcases max_choice 1 (w / 2) with hm | hm <;> rw [hm] <;>
          rcases abs_cases (ind + w - istar) with ⟨he, h0⟩ | ⟨he, h0⟩ <;> rw [he] <;>
          rcases abs_cases (ind - istar) with ⟨he2, h02⟩ | ⟨he2, h02⟩ <;>
          rw [he2] at hb <;> omega
    · rw [if_neg hcond]
      push_neg at hcond
      have h1 : ¬ istar < ind := fun hh =>
        absurd ((bracket_lt_iff keys E istar hk hbr1 hbr2 ind).mpr hh)
          (not_lt.mpr hcond.1)
      have h2 : ¬ ind < istar := fun hh =>
        absurd ((bracket_ge_iff keys E istar hk hbr1 hbr2 ind).mpr hh)
          (not_le.mpr hcond.2)
      rw [show ind = istar by omega]

/-- Claim C7: for every strictly increasing cross-section table and every
energy bracketed by consecutive keys at index istar (which is exactly the
set of energies with keys[0] <= E < keys[N-1]), the binary search of
microscopic_cs_for_energy_binary, started at N / 2 with stride halved each
step and clamped to at least 1, terminates within its fuel and returns
istar with the linearly interpolated value. -/
theorem c7_binary_search_correct (keys values : ℤ → ℚ) (N : ℕ) (E : ℚ) (istar : ℤ)
    (hk : StrictMono keys) (hN : 2 ≤ N) (hi0 : 0 ≤ istar) (hi1 : istar ≤ (N : ℤ) - 2)
    (hbr1 : keys istar ≤ E) (hbr2 : E < keys (istar + 1)) :
    microscopic_cs_for_energy_binary keys values N E =
      some (istar, values istar +
        ((E - keys istar) / (keys (istar + 1) - keys istar)) *
        (values (istar + 1) - values istar)) := by
  have hsearch : csSearch keys E (3 * N + 3) ((N : ℤ) / 2) (((N : ℤ) / 2) / 2) =
      some istar := by
    by_cases hw : 1 ≤ ((N : ℤ) / 2) / 2
    · apply csSearch_converges keys E istar hk hbr1 hbr2 _ _ _ hw
      rcases abs_cases ((N : ℤ) / 2 - istar) with ⟨he, h0⟩ | ⟨he, h0⟩ <;> rw [he] <;>
        omega
    · have hw0 : ((N : ℤ) / 2) / 2 = 0 := by omega
      have hind : (N : ℤ) / 2 = 1 := by omega
      rw [hw0, hind, show 3 * N + 3 = (3 * N + 2) + 1 by omega, csSearch_succ]
      by_cases hcond : E < keys 1 ∨ E ≥ keys (1 + 1)
      · rw [if_pos hcond]
        have hz : ((0 : ℤ) / 2) = 0 := rfl
        rw [hz]
        simp only [neg_zero, ite_self, add_zero]
        apply csSearch_converges keys E istar hk hbr1 hbr2 _ _ _ (le_refl 1)
        rcases abs_cases ((1 : ℤ) - istar) with ⟨he, h0⟩ | ⟨he, h0⟩ <;> rw [he] <;>
          omega
      · rw [if_neg hcond]
        push_neg at hcond
        have h1 : ¬ istar < 1 := fun hh =>
          absurd ((bracket_lt_iff keys E istar hk hbr1 hbr2 1).mpr hh)
            (not_lt.mpr hcond.1)
        have h2 : ¬ (1 : ℤ) < istar := fun hh =>
          absurd ((bracket_ge_iff keys E istar hk hbr1 hbr2 1).mpr hh)
            (not_le.mpr hcond.2)
        rw [show (1 : ℤ) = istar by omega]
  rw [microscopic_cs_for_energy_binary, hsearch]
  rfl

/-- Claim C7, witness: the lookup on the identity table with five entries
at energy 3/2 returns the bracketing index 1 and the interpolated value
3/2. -/
theorem c7_binary_search_correct_witness :
    microscopic_cs_for_energy_binary (fun j => (j : ℚ)) (fun j => (j : ℚ)) 5 (3/2) =
      some (1, 3/2) := by
  have h := c7_binary_search_correct (fun j => (j : ℚ)) (fun j => (j : ℚ)) 5 (3/2) 1
    (by intro a b hab; show (a : ℚ) < (b : ℚ); exact_mod_cast hab)
    (by norm_num) (by norm_num) (by norm_num)
    (by norm_num) (by norm_num)
  rw [h]
  norm_num

/-- Embeds the elastic-scattering direction update of collision_event,
src/omp3/neutral.c lines 380-400: e_new from the center-of-mass relation,
the lab-frame cosine from the energy ratio, sin_theta = sqrt(1 - cos^2),
and the rotation of (omega_x, omega_y) by theta.  A is the header constant
MASS_NO (outside src/), passed as a parameter; mu_cm is the sampled
scattering cosine 1 - 2 * rn. -/
noncomputable def scatterOmega (A E mu_cm omega_x omega_y : ℝ) : ℝ × ℝ :=
  let e_new := E * (A * A + 2 * A * mu_cm + 1) / ((A + 1) * (A + 1))
  let cos_theta := (1/2) * (A + 1) * Real.sqrt (e_new / E) -
    (1/2) * (A - 1) * Real.sqrt (E / e_new)
  let sin_theta := Real.sqrt (1 - cos_theta * cos_theta)
  (omega_x * cos_theta - omega_y * sin_theta,
   omega_x * sin_theta + omega_y * cos_theta)

/-- The direction states reachable from injection: inject_particles writes
(cos theta, sin theta) (src/omp3/neutral.c lines 719-723); collision_event
rotates the direction by the lab-frame scattering angle with
mu_cm = 1 - 2 * rn in [-1, 1] and a positive pre-collision energy (lines
380-400); facet_event negates one component at a reflective boundary
(lines 455-464). -/
inductive ReachableDir (A : ℝ) : ℝ × ℝ → Prop
  | inject (theta : ℝ) : ReachableDir A (Real.cos theta, Real.sin theta)
  | scatter (d : ℝ × ℝ) (E mu_cm : ℝ) (hd : ReachableDir A d) (hE : 0 < E)
      (hmu1 : -1 ≤ mu_cm) (hmu2 : mu_cm ≤ 1) :
      ReachableDir A (scatterOmega A E mu_cm d.1 d.2)
  | reflectX (d : ℝ × ℝ) (hd : ReachableDir A d) : ReachableDir A (-d.1, d.2)
  | reflectY (d : ℝ × ℝ) (hd : ReachableDir A d) : ReachableDir A (d.1, -d.2)

/-- The lab-frame scattering cosine computed by collision_event has square
at most 1 whenever the scattering-angle sample lies in [-1, 1], the energy
is positive and the mass number is at least 1. -/
lemma cos_sq_le_one (A E mu enew : ℝ) (hA : 1 ≤ A) (hE : 0 < E)
    (hmu1 : -1 ≤ mu) (hmu2 : mu ≤ 1)
    (henew : enew = E * (A * A + 2 * A * mu + 1) / ((A + 1) * (A + 1))) :
    ((1/2) * (A + 1) * Real.sqrt (enew / E) -
     (1/2) * (A - 1) * Real.sqrt (E / enew))^2 ≤ 1 := by
  have hmusq : mu^2 ≤ 1 := by nlinarith
  have hD0 : (0:ℝ) ≤ A * A + 2 * A * mu + 1 := by nlinarith [sq_nonneg (A + mu)]
  have hA0 : (0:ℝ) < A + 1 := by linarith
  rcases eq_or_lt_of_le hD0 with hD | hD
  · have henew0 : enew = 0 := by
      rw [henew, ← hD]
      simp
    rw [henew0]
    norm_num [Real.sqrt_zero]
  · have hDne : A * A + 2 * A * mu + 1 ≠ 0 := ne_of_gt hD
    have h1 : enew / E = (A * A + 2 * A * mu + 1) / ((A + 1) * (A + 1)) := by
      rw [henew]
      field_simp
      ring
    have h2 : E / enew = ((A + 1) * (A + 1)) / (A * A + 2 * A * mu + 1) := by
      rw [henew]
      field_simp
      ring
    rw [h1, h2, show (A + 1) * (A + 1) = (A + 1)^2 by ring,
      Real.sqrt_div hD0 ((A + 1)^2), Real.sqrt_div (sq_nonneg (A + 1)) _,
      Real.sqrt_sq hA0.le]
    set s := Real.sqrt (A * A + 2 * A * mu + 1) with hsdef
    have hs2 : s ^ 2 = A * A + 2 * A * mu + 1 := Real.sq_sqrt hD0
    have hspos : 0 < s := Real.sqrt_pos.mpr hD
    have hsne : s ≠ 0 := ne_of_gt hspos
    have hA0ne : A + 1 ≠ 0 := ne_of_gt hA0
    have e1 : (1/2) * (A + 1) * (s / (A + 1)) = s / 2 := by
      field_simp
      ring
    have e2 : (1/2) * (A - 1) * ((A + 1) / s) = (A^2 - 1) / (2 * s) := by
      field_simp
      ring
    rw [e1, e2]
    have main : ((A * A + 2 * A * mu + 1) - (A^2 - 1))^2 ≤
        4 * (A * A + 2 * A * mu + 1) := by
      nlinarith [mul_nonneg (sq_nonneg A) (by nlinarith : (0:ℝ) ≤ 1 - mu^2)]
    have t1 : 2 * s * ((A^2 - 1) / (2 * s)) = A^2 - 1 := by
      field_simp
    have hc : 2 * s * (s / 2 - (A^2 - 1) / (2 * s)) =
        (A * A + 2 * A * mu + 1) - (A^2 - 1) := by
      rw [mul_sub, t1, show 2 * s * (s / 2) = s^2 by ring, hs2]
    have h4Dc : 4 * (A * A + 2 * A * mu + 1) * (s / 2 - (A^2 - 1) / (2 * s))^2 =
        ((A * A + 2 * A * mu + 1) - (A^2 - 1))^2 := by
      calc 4 * (A * A + 2 * A * mu + 1) * (s / 2 - (A^2 - 1) / (2 * s))^2
          = 4 * s^2 * (s / 2 - (A^2 - 1) / (2 * s))^2 := by rw [hs2]
        _ = (2 * s * (s / 2 - (A^2 - 1) / (2 * s)))^2 := by ring
        _ = ((A * A + 2 * A * mu + 1) - (A^2 - 1))^2 := by rw [hc]
    nlinarith [h4Dc, main, hD]

/-- A rotation by an angle whose cosine c satisfies c^2 <= 1, with
sin = sqrt(1 - c^2), sends a unit direction to a unit direction. -/
lemma rotate_norm (ox oy c : ℝ) (hnorm : ox^2 + oy^2 = 1) (hc : c^2 ≤ 1) :
    (ox * c - oy * Real.sqrt (1 - c * c))^2 +
    (ox * Real.sqrt (1 - c * c) + oy * c)^2 = 1 := by
  have h0 : (0:ℝ) ≤ 1 - c * c := by nlinarith
  have hS : Real.sqrt (1 - c * c) ^ 2 = 1 - c * c := Real.sq_sqrt h0
  have expand : (ox * c - oy * Real.sqrt (1 - c * c))^2 +
      (ox * Real.sqrt (1 - c * c) + oy * c)^2 =
      (ox^2 + oy^2) * (c^2 + Real.sqrt (1 - c * c) ^ 2) := by ring
  rw [expand, hnorm, hS]
  ring

/-- The scattering rotation of collision_event preserves the unit norm of
the direction exactly, in exact arithmetic. -/
lemma scatterOmega_norm (A E mu ox oy : ℝ) (hA : 1 ≤ A) (hE : 0 < E)
    (hmu1 : -1 ≤ mu) (hmu2 : mu ≤ 1) (hnorm : ox^2 + oy^2 = 1) :
    (scatterOmega A E mu ox oy).1^2 + (scatterOmega A E mu ox oy).2^2 = 1 := by
  have hC := cos_sq_le_one A E mu (E * (A * A + 2 * A * mu + 1) / ((A + 1) * (A + 1)))
    hA hE hmu1 hmu2 rfl
  exact rotate_norm ox oy _ hnorm hC

/-- Every direction reachable from injection has unit norm exactly. -/
lemma reachable_norm (A : ℝ) (hA : 1 ≤ A) (d : ℝ × ℝ) (h : ReachableDir A d) :
    d.1^2 + d.2^2 = 1 := by
  induction h with
  | inject theta => exact Real.cos_sq_add_sin_sq theta
  | scatter d E mu hd hE hmu1 hmu2 ih => exact scatterOmega_norm A E mu d.1 d.2 hA hE hmu1 hmu2 ih
  | reflectX d hd ih => simpa [neg_sq] using ih
  | reflectY d hd ih => simpa [neg_sq] using ih

/-- Claim C9: every direction state reachable from injection, through
elastic-scattering rotations and boundary reflections, satisfies
|omega_x^2 + omega_y^2 - 1| <= 1e-12 (in exact arithmetic the deviation is
exactly zero). -/
theorem c9_direction_unit (A : ℝ) (d : ℝ × ℝ) (hA : 1 ≤ A)
    (h : ReachableDir A d) : |d.1^2 + d.2^2 - 1| ≤ 1/10^12 := by
  rw [reachable_norm A hA d h]
  norm_num

/-- Claim C9, witness: the invariant at the injected direction of angle 0
with mass number 1. -/
theorem c9_direction_unit_witness :
    |(Real.cos 0)^2 + (Real.sin 0)^2 - 1| ≤ 1/10^12 :=
  c9_direction_unit 1 (Real.cos 0, Real.sin 0) (le_refl 1) (ReachableDir.inject 0)

/-- Claim C4, witness: the check fires on no block, in particular not on a
block whose first lane carries a failed lookup. -/
theorem c4_found_check_never_fires_witness :
    crossSectionLookupFailureDetected [false, true] = false :=
  c4_found_check_never_fires [false, true]
